import Mathlib

/-!
A verification development for the aerial-segmentation repository
(`aerialseg/utils.py` and `scripts/density_map.py`).

The pipeline turns per-image instance-segmentation outputs into a single
COCO-style table of polygon rows.  We embed the pipeline shallowly:

* pixel coordinates are rationals (`Point`);
* the binary mask of an instance is an abstract type parameter `Mask`,
  and the contour tracer (`supervision.mask_to_polygons`, an external
  library built on OpenCV contour tracing) is passed in as a function
  `Mask → List (List Point)`;
* `shapely.geometry.Polygon` construction and `Polygon.simplify`
  (GEOS Douglas-Peucker-style simplification, which retains a subset of
  the ring's vertices and keeps both endpoints) are modelled by
  `linearRing` and `simplifyDP` below;
* Python exceptions become `Except String`, and `warnings.warn` calls
  become an explicit list of `Warn` values accumulated in emission order
  up to the point of an exception (a raised exception aborts the call,
  discarding any rows built so far, while warnings already emitted stand).
-/

namespace AerialSeg

/-- A 2D pixel coordinate pair. -/
abbrev Point : Type := ℚ × ℚ

/-- A bounding box (min-x, min-y, max-x, max-y) in pixel coordinates. -/
abbrev BBox : Type := ℚ × ℚ × ℚ × ℚ

/-- A path to an image file. -/
abbrev ImagePath : Type := String

/-- A polygon as stored in an output row: flattened (interleaved x,y
scalars, when `flatten` is set) or nested (a list of coordinate pairs). -/
abbrev Seg : Type := List ℚ ⊕ List Point

/-- The warning diagnostics the pipeline emits through `warnings.warn`:
the degenerate-polygon warning of `polygon_prep` and the empty-mask
warning of `extract_output_annotations` (which carries the instance
index `i` in its message). -/
inductive Warn : Type where
  | degeneratePolygon (polygon : List Point)
  | emptyPolygon (index : ℕ)
deriving DecidableEq

/-- Squared euclidean distance between two points. -/
def distSq (p q : Point) : ℚ :=
  (p.1 - q.1) * (p.1 - q.1) + (p.2 - q.2) * (p.2 - q.2)

/-- Squared distance from `p` to the segment from `a` to `b` — the
distance measure used by the GEOS Douglas-Peucker simplifier.  When the
segment is degenerate (`a = b`, e.g. the two coincident endpoints of a
closed ring) this is the squared distance to the point `a`. -/
def segDistSq (p a b : Point) : ℚ :=
  let dx := b.1 - a.1
  let dy := b.2 - a.2
  let len2 := dx * dx + dy * dy
  if len2 = 0 then distSq p a
  else
    let t := ((p.1 - a.1) * dx + (p.2 - a.2) * dy) / len2
    if t ≤ 0 then distSq p a
    else if 1 ≤ t then distSq p b
    else distSq p (a.1 + t * dx, a.2 + t * dy)

/-- Index (into `l`) and squared distance of a point of `l` farthest
from the segment `a`-`b`; `none` when `l` is empty. -/
def farthestIdx (a b : Point) : List Point → Option (ℕ × ℚ)
  | [] => none
  | p :: ps =>
    match farthestIdx a b ps with
    | none => some (0, segDistSq p a b)
    | some (j, d) =>
      if d ≤ segDistSq p a b then some (0, segDistSq p a b)
      else some (j + 1, d)

/-- Core of the Douglas-Peucker simplification: the retained points
strictly between the fixed endpoints `a` and `b`, drawn from the
intermediate points `mid`.  If the farthest intermediate point is
within the tolerance, all intermediate points are dropped; otherwise
the farthest point is kept and both sides are simplified recursively.
`fuel` bounds the recursion depth; `fuel = mid.length` always
suffices. -/
def dpInner : ℕ → ℚ → Point → Point → List Point → List Point
  | 0, _, _, _, _ => []
  | Nat.succ fuel, tol, a, b, mid =>
    match farthestIdx a b mid with
    | none => []
    | some jd =>
      if tol * tol < jd.2 then
        match mid.get? jd.1 with
        | none => []
        | some pj =>
          dpInner fuel tol a pj (mid.take jd.1) ++
            pj :: dpInner fuel tol pj b (mid.drop (jd.1 + 1))
      else []

/-- Douglas-Peucker simplification of a coordinate sequence, as applied
by `shapely`'s `Polygon.simplify` to the exterior ring: the first and
last coordinates are always kept (so a closed ring stays closed), and
the retained coordinates are a subsequence of the input. -/
def simplifyDP (tol : ℚ) : List Point → List Point
  | [] => []
  | [p] => [p]
  | a :: r :: rs =>
    let mid := (r :: rs).dropLast
    let b := (r :: rs).getLast (List.cons_ne_nil r rs)
    a :: (dpInner mid.length tol a b mid ++ [b])

/-- The exterior ring that `shapely.geometry.Polygon(coords)` builds
from a coordinate list: the empty list yields an empty polygon (empty
exterior ring), a nonempty list is closed by appending the first
coordinate when it differs from the last, and a closed ring of fewer
than 4 coordinates is rejected with a `ValueError`. -/
def linearRing : List Point → Except String (List Point)
  | [] => Except.ok []
  | c :: cs =>
    let ring :=
      if (c :: cs).getLast (List.cons_ne_nil c cs) = c then c :: cs
      else (c :: cs) ++ [c]
    if ring.length < 4 then
      Except.error "A linearring requires at least 4 coordinates"
    else Except.ok ring

/-- `polygon_prep` from `aerialseg/utils.py`: warns when the contour has
fewer than 3 points, then, when the tolerance is positive, builds a
shapely polygon from it, simplifies it, and returns the coordinates of
the simplified polygon's exterior ring; otherwise returns the contour
unchanged. -/
def polygon_prep (polygon : List Point) (simplify_tolerance : ℚ) :
    List Warn × Except String (List Point) :=
  let w := if polygon.length < 3 then [Warn.degeneratePolygon polygon] else []
  if 0 < simplify_tolerance then
    match linearRing polygon with
    | Except.error e => (w, Except.error e)
    | Except.ok ring => (w, Except.ok (simplifyDP simplify_tolerance ring))
  else (w, Except.ok polygon)

/-- Interleave the x and y coordinates of a polygon into one flat list,
as `numpy.ndarray.flatten().tolist()` does on an N-by-2 array. -/
def flattenPoly (p : List Point) : List ℚ :=
  p.flatMap fun q => [q.1, q.2]

/-- The four parallel result lists of `extract_output_annotations`:
per-row binary masks, polygons, bounding boxes and class labels, in
emission order. -/
structure Rows (Mask : Type) : Type where
  mask_arrays : List Mask
  polygons : List Seg
  bbox_list : List BBox
  labels_list : List Int
deriving DecidableEq

/-- Rows with all four lists empty. -/
def Rows.nil {Mask : Type} : Rows Mask := ⟨[], [], [], []⟩

/-- Componentwise concatenation of row lists. -/
def Rows.append {Mask : Type} (r s : Rows Mask) : Rows Mask :=
  ⟨r.mask_arrays ++ s.mask_arrays, r.polygons ++ s.polygons,
   r.bbox_list ++ s.bbox_list, r.labels_list ++ s.labels_list⟩

/-- The inner loop of `extract_output_annotations` over the contours
traced from one instance's mask: each contour is passed through
`polygon_prep` and appended (together with the instance's mask, class
label and bounding box) to the four parallel lists.  A `polygon_prep`
exception aborts the whole call. -/
def processContours {Mask : Type} (tol : ℚ) (flatten : Bool)
    (m : Mask) (l : Int) (b : BBox) :
    List (List Point) → List Warn × Except String (Rows Mask)
  | [] => ([], Except.ok Rows.nil)
  | p :: ps =>
    let w := (polygon_prep p tol).1
    match (polygon_prep p tol).2 with
    | Except.error e => (w, Except.error e)
    | Except.ok q =>
      let rest := processContours tol flatten m l b ps
      (w ++ rest.1, rest.2.map fun rs =>
        ⟨m :: rs.mask_arrays,
         (if flatten then Sum.inl (flattenPoly q) else Sum.inr q) :: rs.polygons,
         b :: rs.bbox_list, l :: rs.labels_list⟩)

/-- The instance loop of `extract_output_annotations`, carrying the
running instance index `i` (used in the empty-mask warning message).
Each instance's mask is traced by `tracer`; when tracing yields at
least one contour the contours are processed, otherwise the instance
is skipped with a warning.  The source iterates `i` over
`range(num_instances)` and reads `mask_array[:, :, i]`, `labels[i]`
and `bbox[i]` in lockstep, which we model by iterating over the list
of (mask, label, box) triples. -/
def extractAux {Mask : Type} (tracer : Mask → List (List Point))
    (flatten : Bool) (tol : ℚ) :
    ℕ → List (Mask × Int × BBox) → List Warn × Except String (Rows Mask)
  | _, [] => ([], Except.ok Rows.nil)
  | i, (m, l, b) :: rest =>
    let ps := tracer m
    if 0 < ps.length then
      let head := processContours tol flatten m l b ps
      match head.2 with
      | Except.error e => (head.1, Except.error e)
      | Except.ok rows1 =>
        let next := extractAux tracer flatten tol (i + 1) rest
        (head.1 ++ next.1, next.2.map fun rows2 => rows1.append rows2)
    else
      let next := extractAux tracer flatten tol (i + 1) rest
      (Warn.emptyPolygon i :: next.1, next.2)

/-- `extract_output_annotations` from `aerialseg/utils.py`: extracts
masks, polygons, bounding boxes and labels from one prediction output
(a list of per-instance (mask, class, box) triples). -/
def extract_output_annotations {Mask : Type}
    (tracer : Mask → List (List Point)) (flatten : Bool) (tol : ℚ)
    (instances : List (Mask × Int × BBox)) :
    List Warn × Except String (Rows Mask) :=
  extractAux tracer flatten tol 0 instances

/-- One row of a per-image table: (pixel_polygon, image_id, class_id). -/
abbrev TileRow : Type := Seg × ℕ × Int

/-- One row of the aggregate table:
(annot_id, pixel_polygon, image_id, class_id). -/
abbrev AnnotRow : Type := ℕ × Seg × ℕ × Int

/-- `extract_tile_annotations_df` from `aerialseg/utils.py`: runs the
predictor on one image (the opaque composite of `cv2.imread` and the
detectron2 predictor is modelled as a function from the image path to
the per-instance triples), extracts polygons and labels with
`flatten = False`, and tabulates them with the supplied image id
broadcast to every row. -/
def extract_tile_annotations_df {Mask : Type}
    (tracer : Mask → List (List Point))
    (predictor : ImagePath → List (Mask × Int × BBox))
    (image_path : ImagePath) (image_id : ℕ) (tol : ℚ) :
    List Warn × Except String (List TileRow) :=
  let out := extract_output_annotations tracer false tol (predictor image_path)
  match out.2 with
  | Except.error e => (out.1, Except.error e)
  | Except.ok rows =>
    (out.1, Except.ok ((rows.polygons.zip rows.labels_list).map
      fun pl => (pl.1, image_id, pl.2)))

/-- The accumulation loop of `extract_all_annotations_df`: one
per-image table per image, with the enumeration index as image id.
A failing image aborts the whole run. -/
def collectFrames {Mask : Type} (tracer : Mask → List (List Point))
    (predictor : ImagePath → List (Mask × Int × BBox)) (tol : ℚ) :
    ℕ → List ImagePath → List Warn × Except String (List (List TileRow))
  | _, [] => ([], Except.ok [])
  | i, img :: rest =>
    let tile := extract_tile_annotations_df tracer predictor img i tol
    match tile.2 with
    | Except.error e => (tile.1, Except.error e)
    | Except.ok t =>
      let next := collectFrames tracer predictor tol (i + 1) rest
      (tile.1 ++ next.1, next.2.map fun ts => t :: ts)

/-- `extract_all_annotations_df` from `aerialseg/utils.py`: builds one
table per image (image id = position in the list), concatenates them
(`pd.concat` raises `ValueError: No objects to concatenate` on an
empty list of tables, i.e. exactly when the image list is empty), and
re-indexes the concatenated table so that `annot_id` is the 0-based
row position. -/
def extract_all_annotations_df {Mask : Type}
    (tracer : Mask → List (List Point))
    (predictor : ImagePath → List (Mask × Int × BBox)) (tol : ℚ)
    (images_list : List ImagePath) :
    List Warn × Except String (List AnnotRow) :=
  let frames := collectFrames tracer predictor tol 0 images_list
  match frames.2 with
  | Except.error e => (frames.1, Except.error e)
  | Except.ok fs =>
    if images_list.isEmpty then
      (frames.1, Except.error "No objects to concatenate")
    else
      (frames.1, Except.ok (fs.flatten.enum.map
        fun p => (p.1, p.2.1, p.2.2.1, p.2.2.2)))

/-- A COCO category entry. -/
structure CocoCategory : Type where
  id : Int
  name : String
  supercategory : Option String
deriving DecidableEq

/-- Modelled from the spec: `coco.make_category` of the external
`aerial_conversion` package (not part of this repository's sources)
builds one category entry `{id, name, supercategory}`; when no
supercategory is passed it is left unset. -/
def make_category (class_name : String) (class_id : Int)
    (supercategory : Option String) : CocoCategory :=
  ⟨class_id, class_name, supercategory⟩

/-- The keys of `annotations.groupby("class_id").groups`: pandas
groupby keys are the distinct group values sorted ascending. -/
def groupby_class_keys (annots : List AnnotRow) : List Int :=
  ((annots.map fun r => r.2.2.2).insertionSort (· ≤ ·)).dedup

/-- The per-key category construction of the supplied-mapping branch of
`assemble_coco_json`: one `make_category` per key, with the mapping's
name and supercategory; a key missing from the Python dict raises
`KeyError`, aborting the list comprehension. -/
def assembleCats (catmap : Int → Option (String × String)) :
    List Int → Except String (List CocoCategory)
  | [] => Except.ok []
  | cat :: cats =>
    match catmap cat with
    | some ns =>
      (assembleCats catmap cats).map fun rest =>
        make_category ns.1 cat (some ns.2) :: rest
    | none => Except.error "KeyError"

/-- The category-assembly portion of `assemble_coco_json` from
`aerialseg/utils.py` (the remaining fields of the coco json object are
verbatim passthrough or calls into the external `aerial_conversion`
package and are not modelled): one `make_category` call per groupby
key.  When a categories mapping is supplied, its name and
supercategory are used; otherwise the name is the string form of the
numeric class id and no supercategory is passed. -/
def assemble_coco_json_categories
    (categories : Option (Int → Option (String × String)))
    (annots : List AnnotRow) : Except String (List CocoCategory) :=
  match categories with
  | some catmap => assembleCats catmap (groupby_class_keys annots)
  | none =>
    Except.ok ((groupby_class_keys annots).map
      fun cat => make_category (toString cat) cat none)

/-- `density_estimate_combined_area` from `scripts/density_map.py`:
asserts `0 <= footprint_ratio <= 1` first, then blends the two density
estimates.  The two sub-estimators (which involve geopandas CRS and
area computations on the annotation geodataframe) are abstracted as
functions of the annotation data, so that the fail-fast behavior —
the assertion fires before either estimator runs, for every input —
is visible in the model. -/
def density_estimate_combined_area {α : Type} (ann : α)
    (density_area density_number : α → ℚ)
    (footprint_ratio : ℚ) : Except String ℚ :=
  if 0 ≤ footprint_ratio ∧ footprint_ratio ≤ 1 then
    Except.ok ((density_area ann * footprint_ratio +
      density_number ann * (1 - footprint_ratio)) / 2)
  else Except.error "footprint_ratio must be between 0 and 1"

/-! ### Lemmas about the simplification model -/

theorem farthestIdx_lt (a b : Point) :
    ∀ (l : List Point) (j : ℕ) (d : ℚ),
      farthestIdx a b l = some (j, d) → j < l.length := by
  intro l
  induction l with
  | nil => intro j d h; simp [farthestIdx] at h
  | cons p ps ih =>
    intro j d h
    simp only [farthestIdx] at h
    cases hf : farthestIdx a b ps with
    | none =>
      rw [hf] at h
      simp only [Option.some.injEq, Prod.mk.injEq] at h
      obtain ⟨h1, _⟩ := h
      subst h1
      simp
    | some jd =>
      obtain ⟨j', d'⟩ := jd
      rw [hf] at h
      by_cases hc : d' ≤ segDistSq p a b
      · simp only [hc, if_true, Option.some.injEq, Prod.mk.injEq] at h
        obtain ⟨h1, _⟩ := h
        subst h1
        simp
      · simp only [hc, if_false, Option.some.injEq, Prod.mk.injEq] at h
        obtain ⟨h1, _⟩ := h
        subst h1
        have := ih j' d' hf
        simp only [List.length_cons]
        omega

theorem dpInner_sublist :
    ∀ (fuel : ℕ) (tol : ℚ) (a b : Point) (mid : List Point),
      List.Sublist (dpInner fuel tol a b mid) mid := by
  intro fuel
  induction fuel with
  | zero => intro tol a b mid; simp [dpInner]
  | succ fuel ih =>
    intro tol a b mid
    simp only [dpInner]
    cases hf : farthestIdx a b mid with
    | none => simp
    | some jd =>
      by_cases hc : tol * tol < jd.2
      · simp only [hc, if_true]
        cases hg : mid.get? jd.1 with
        | none => simp
        | some pj =>
          have hlt : jd.1 < mid.length := by
            by_contra hge
            rw [List.get?_eq_none.mpr (Nat.le_of_not_lt hge)] at hg
            exact Option.noConfusion hg
          have hget : mid.get ⟨jd.1, hlt⟩ = pj := by
            have h3 : mid.get? jd.1 = some (mid.get ⟨jd.1, hlt⟩) :=
              List.get?_eq_get hlt
            rw [h3] at hg
            exact Option.some.inj hg
          have hmid :
              mid.take jd.1 ++ pj :: mid.drop (jd.1 + 1) = mid := by
            conv_rhs => rw [← List.take_append_drop jd.1 mid]
            congr 1
            rw [List.drop_eq_getElem_cons hlt]
            rw [← List.get_eq_getElem mid ⟨jd.1, hlt⟩, hget]
          have hsub : List.Sublist
              (dpInner fuel tol a pj (mid.take jd.1) ++
                pj :: dpInner fuel tol pj b (mid.drop (jd.1 + 1)))
              (mid.take jd.1 ++ pj :: mid.drop (jd.1 + 1)) :=
            List.Sublist.append (ih tol a pj _)
              (List.Sublist.cons₂ pj (ih tol pj b _))
          rw [hmid] at hsub
          exact hsub
      · simp [hc]

theorem simplifyDP_sublist (tol : ℚ) :
    ∀ l : List Point, List.Sublist (simplifyDP tol l) l := by
  intro l
  match l with
  | [] => simp [simplifyDP]
  | [p] => simp [simplifyDP]
  | a :: r :: rs =>
    have h2 :
        (r :: rs).dropLast ++ [(r :: rs).getLast (List.cons_ne_nil r rs)] =
          r :: rs :=
      List.dropLast_append_getLast (List.cons_ne_nil r rs)
    have hsub : List.Sublist
        (a :: (dpInner ((r :: rs).dropLast).length tol a
            ((r :: rs).getLast (List.cons_ne_nil r rs)) ((r :: rs).dropLast) ++
          [(r :: rs).getLast (List.cons_ne_nil r rs)]))
        (a :: ((r :: rs).dropLast ++
          [(r :: rs).getLast (List.cons_ne_nil r rs)])) :=
      List.Sublist.cons₂ a
        (List.Sublist.append (dpInner_sublist _ tol a _ _)
          (List.Sublist.refl _))
    rw [h2] at hsub
    exact hsub

theorem simplifyDP_length_le (tol : ℚ) (l : List Point) :
    (simplifyDP tol l).length ≤ l.length :=
  (simplifyDP_sublist tol l).length_le

theorem simplifyDP_subset (tol : ℚ) (l : List Point) :
    ∀ p ∈ simplifyDP tol l, p ∈ l :=
  fun _ hp => (simplifyDP_sublist tol l).subset hp

theorem simplifyDP_head? (tol : ℚ) (a r : Point) (rs : List Point) :
    (simplifyDP tol (a :: r :: rs)).head? = some a := by
  simp [simplifyDP]

theorem simplifyDP_getLast? (tol : ℚ) (a r : Point) (rs : List Point) :
    (simplifyDP tol (a :: r :: rs)).getLast? = (a :: r :: rs).getLast? := by
  have h1 : simplifyDP tol (a :: r :: rs) =
      (a :: dpInner ((r :: rs).dropLast).length tol a
        ((r :: rs).getLast (List.cons_ne_nil r rs)) ((r :: rs).dropLast)) ++
        [(r :: rs).getLast (List.cons_ne_nil r rs)] := by
    simp [simplifyDP]
  rw [h1, List.getLast?_concat]
  rw [List.getLast?_eq_getLast _ (List.cons_ne_nil a (r :: rs))]
  rw [List.getLast_cons (List.cons_ne_nil r rs)]

theorem linearRing_cases (poly ring : List Point)
    (h : linearRing poly = Except.ok ring) :
    ring = poly ∨ ∃ c cs, poly = c :: cs ∧ ring = poly ++ [c] := by
  match poly with
  | [] =>
    left
    have h2 : (Except.ok [] : Except String (List Point)) = Except.ok ring := h
    exact (Except.ok.inj h2).symm
  | c :: cs =>
    simp only [linearRing] at h
    by_cases hlast : (c :: cs).getLast (List.cons_ne_nil c cs) = c
    · rw [if_pos hlast] at h
      by_cases hlen : (c :: cs).length < 4
      · rw [if_pos hlen] at h; exact absurd h (by simp)
      · rw [if_neg hlen] at h
        left; exact (Except.ok.inj h).symm
    · rw [if_neg hlast] at h
      by_cases hlen : ((c :: cs) ++ [c]).length < 4
      · rw [if_pos hlen] at h; exact absurd h (by simp)
      · rw [if_neg hlen] at h
        right; exact ⟨c, cs, rfl, (Except.ok.inj h).symm⟩

theorem linearRing_closed (poly ring : List Point) (hne : poly ≠ [])
    (h : linearRing poly = Except.ok ring) :
    ring.head? = ring.getLast? ∧ 4 ≤ ring.length := by
  match poly with
  | [] => exact absurd rfl hne
  | c :: cs =>
    simp only [linearRing] at h
    by_cases hlast : (c :: cs).getLast (List.cons_ne_nil c cs) = c
    · rw [if_pos hlast] at h
      by_cases hlen : (c :: cs).length < 4
      · rw [if_pos hlen] at h; exact absurd h (by simp)
      · rw [if_neg hlen] at h
        obtain rfl := Except.ok.inj h
        constructor
        · rw [List.getLast?_eq_getLast _ (List.cons_ne_nil c cs), hlast]
          rfl
        · omega
    · rw [if_neg hlast] at h
      by_cases hlen : ((c :: cs) ++ [c]).length < 4
      · rw [if_pos hlen] at h; exact absurd h (by simp)
      · rw [if_neg hlen] at h
        obtain rfl := Except.ok.inj h
        constructor
        · rw [List.getLast?_concat]
          rfl
        · omega

theorem polygon_prep_pos (poly : List Point) (tol : ℚ) (out : List Point)
    (htol : 0 < tol) (h : (polygon_prep poly tol).2 = Except.ok out) :
    ∃ ring, linearRing poly = Except.ok ring ∧ out = simplifyDP tol ring := by
  simp only [polygon_prep, if_pos htol] at h
  cases hr : linearRing poly with
  | error e => rw [hr] at h; exact absurd h (by simp)
  | ok ring =>
    rw [hr] at h
    exact ⟨ring, rfl, (Except.ok.inj h).symm⟩

theorem polygon_prep_nonpos (poly : List Point) (tol : ℚ) (htol : ¬ 0 < tol) :
    polygon_prep poly tol =
      (if poly.length < 3 then [Warn.degeneratePolygon poly] else [],
        Except.ok poly) := by
  simp [polygon_prep, htol]

theorem linearRing_short (poly : List Point) (hne : poly ≠ [])
    (hlen : poly.length < 3) :
    linearRing poly =
      Except.error "A linearring requires at least 4 coordinates" := by
  match poly with
  | [] => exact absurd rfl hne
  | c :: cs =>
    simp only [linearRing]
    by_cases hlast : (c :: cs).getLast (List.cons_ne_nil c cs) = c
    · rw [if_pos hlast, if_pos]
      simp only [List.length_cons] at hlen ⊢
      omega
    · rw [if_neg hlast, if_pos]
      simp only [List.length_append, List.length_cons, List.length_nil] at hlen ⊢
      omega

theorem linearRing_open (c : Point) (cs : List Point)
    (hlen : 3 ≤ (c :: cs).length)
    (hne : (c :: cs).getLast (List.cons_ne_nil c cs) ≠ c) :
    linearRing (c :: cs) = Except.ok ((c :: cs) ++ [c]) := by
  simp only [linearRing]
  rw [if_neg hne, if_neg]
  simp only [List.length_append, List.length_cons, List.length_nil] at hlen ⊢
  omega

/-! ### Lemmas about the extraction pipeline -/

theorem processContours_ok {Mask : Type} (tol : ℚ) (flatten : Bool)
    (m : Mask) (l : Int) (b : BBox) :
    ∀ (ps : List (List Point)) (rows : Rows Mask),
      (processContours tol flatten m l b ps).2 = Except.ok rows →
      rows.labels_list = List.replicate ps.length l ∧
      rows.bbox_list = List.replicate ps.length b ∧
      rows.mask_arrays = List.replicate ps.length m ∧
      rows.polygons.length = ps.length := by
  intro ps
  induction ps with
  | nil =>
    intro rows h
    obtain rfl := Except.ok.inj h
    simp [Rows.nil]
  | cons p ps ih =>
    intro rows h
    simp only [processContours] at h
    cases hq : (polygon_prep p tol).2 with
    | error e => rw [hq] at h; exact absurd h (by simp)
    | ok q =>
      rw [hq] at h
      cases hr : (processContours tol flatten m l b ps).2 with
      | error e => rw [hr] at h; exact absurd h (by simp [Except.map])
      | ok rs =>
        rw [hr] at h
        simp only [Except.map] at h
        obtain rfl := Except.ok.inj h
        obtain ⟨h1, h2, h3, h4⟩ := ih rs hr
        simp [h1, h2, h3, h4, List.replicate_succ]

theorem extract_tile_imageId {Mask : Type}
    (tracer : Mask → List (List Point))
    (predictor : ImagePath → List (Mask × Int × BBox)) (img : ImagePath)
    (i : ℕ) (tol : ℚ) (t : List TileRow)
    (h : (extract_tile_annotations_df tracer predictor img i tol).2 =
      Except.ok t) :
    ∀ r ∈ t, r.2.1 = i := by
  simp only [extract_tile_annotations_df] at h
  cases ho : (extract_output_annotations tracer false tol (predictor img)).2 with
  | error e => rw [ho] at h; exact absurd h (by simp)
  | ok rows =>
    rw [ho] at h
    obtain rfl := Except.ok.inj h
    intro r hr
    simp only [List.mem_map] at hr
    obtain ⟨pl, _, rfl⟩ := hr
    rfl

theorem collectFrames_ok {Mask : Type} (tracer : Mask → List (List Point))
    (predictor : ImagePath → List (Mask × Int × BBox)) (tol : ℚ) :
    ∀ (images : List ImagePath) (i : ℕ) (frames : List (List TileRow)),
      (collectFrames tracer predictor tol i images).2 = Except.ok frames →
      frames.length = images.length ∧
      ∀ j (hj : j < frames.length),
        ∀ r ∈ frames.get ⟨j, hj⟩, r.2.1 = i + j := by
  intro images
  induction images with
  | nil =>
    intro i frames h
    obtain rfl := Except.ok.inj h
    refine ⟨rfl, ?_⟩
    intro j hj
    simp at hj
  | cons img rest ih =>
    intro i frames h
    simp only [collectFrames] at h
    cases ht : (extract_tile_annotations_df tracer predictor img i tol).2 with
    | error e => rw [ht] at h; exact absurd h (by simp)
    | ok t =>
      rw [ht] at h
      cases hn : (collectFrames tracer predictor tol (i + 1) rest).2 with
      | error e => rw [hn] at h; exact absurd h (by simp [Except.map])
      | ok ts =>
        rw [hn] at h
        simp only [Except.map] at h
        obtain rfl := Except.ok.inj h
        obtain ⟨hlen, hids⟩ := ih (i + 1) ts hn
        refine ⟨by simp [hlen], ?_⟩
        intro j hj r hr
        cases j with
        | zero =>
          have hr0 : r ∈ t := by simpa using hr
          have := extract_tile_imageId tracer predictor img i tol t ht r hr0
          simpa using this
        | succ j =>
          have hj2 : j < ts.length := by
            simp only [List.length_cons] at hj
            omega
          have hrt : r ∈ ts.get ⟨j, hj2⟩ := by
            simpa using hr
          have := hids j hj2 r hrt
          rw [this]
          omega

theorem extract_tile_congr {Mask : Type} (tracer : Mask → List (List Point))
    (p1 p2 : ImagePath → List (Mask × Int × BBox)) (img : ImagePath)
    (i : ℕ) (tol : ℚ) (h : p1 img = p2 img) :
    extract_tile_annotations_df tracer p1 img i tol =
      extract_tile_annotations_df tracer p2 img i tol := by
  simp only [extract_tile_annotations_df, h]

theorem collectFrames_congr {Mask : Type} (tracer : Mask → List (List Point))
    (p1 p2 : ImagePath → List (Mask × Int × BBox)) (tol : ℚ) :
    ∀ (images : List ImagePath) (i : ℕ),
      (∀ img ∈ images, p1 img = p2 img) →
      collectFrames tracer p1 tol i images =
        collectFrames tracer p2 tol i images := by
  intro images
  induction images with
  | nil => intro i _; rfl
  | cons img rest ih =>
    intro i h
    have h1 := extract_tile_congr tracer p1 p2 img i tol
      (h img (List.mem_cons_self img rest))
    have h2 := ih (i + 1) fun x hx => h x (List.mem_cons_of_mem img hx)
    simp only [collectFrames, h1, h2]

theorem assembleCats_total (catmap : Int → String × String) :
    ∀ keys : List Int,
      assembleCats (fun c => some (catmap c)) keys =
        Except.ok (keys.map fun cat =>
          make_category (catmap cat).1 cat (some (catmap cat).2)) := by
  intro keys
  induction keys with
  | nil => rfl
  | cons k ks ih => simp [assembleCats, ih, Except.map]

/-- Concrete evaluation: the 4-point square contour at tolerance 1
comes back as its 5-coordinate closed exterior ring. -/
theorem square_prep_eval :
    (polygon_prep [((0 : ℚ), (0 : ℚ)), (4, 0), (4, 4), (0, 4)] 1).2 =
      Except.ok [((0 : ℚ), (0 : ℚ)), (4, 0), (4, 4), (0, 4), (0, 0)] := by
  norm_num [polygon_prep, linearRing, simplifyDP, dpInner, farthestIdx,
    segDistSq, distSq, List.getLast, List.dropLast, List.get?, List.take,
    List.drop]

/-- Concrete evaluation: the 3-point triangle contour at tolerance 1
comes back as its 4-coordinate closed exterior ring. -/
theorem tri_prep_eval_tol1 :
    (polygon_prep [((0 : ℚ), (0 : ℚ)), (4, 0), (0, 4)] 1).2 =
      Except.ok [((0 : ℚ), (0 : ℚ)), (4, 0), (0, 4), (0, 0)] := by
  norm_num [polygon_prep, linearRing, simplifyDP, dpInner, farthestIdx,
    segDistSq, distSq, List.getLast, List.dropLast, List.get?, List.take,
    List.drop]

/-- Concrete evaluation: the 3-point triangle contour at the
out-of-range tolerance 2 is processed normally. -/
theorem tri_prep_eval_tol2 :
    (polygon_prep [((0 : ℚ), (0 : ℚ)), (4, 0), (0, 4)] 2).2 =
      Except.ok [((0 : ℚ), (0 : ℚ)), (4, 0), (0, 4), (0, 0)] := by
  norm_num [polygon_prep, linearRing, simplifyDP, dpInner, farthestIdx,
    segDistSq, distSq, List.getLast, List.dropLast, List.get?, List.take,
    List.drop]

/-! ### Claim C1 -/

/-- **C1**: for every non-empty image list whose run succeeds, every
row's `image_id` equals the 0-based position of its source image in the
input list, the rows are ordered by image order then within-image
emission order (the table is the order-preserving concatenation of the
per-image tables), and `annot_id` equals the 0-based row position, so
the `annot_id` values are exactly `{0, ..., n-1}` with no gaps or
duplicates. -/
theorem C1_global_ids {Mask : Type} (tracer : Mask → List (List Point))
    (predictor : ImagePath → List (Mask × Int × BBox)) (tol : ℚ)
    (images : List ImagePath) (rows : List AnnotRow)
    (hne : images ≠ [])
    (hok : (extract_all_annotations_df tracer predictor tol images).2 =
      Except.ok rows) :
    rows.map Prod.fst = List.range rows.length ∧
    ∃ frames,
      (collectFrames tracer predictor tol 0 images).2 = Except.ok frames ∧
      frames.length = images.length ∧
      rows = frames.flatten.enum.map
        (fun p => (p.1, p.2.1, p.2.2.1, p.2.2.2)) ∧
      ∀ j (hj : j < frames.length),
        ∀ r ∈ frames.get ⟨j, hj⟩, r.2.1 = j := by
  simp only [extract_all_annotations_df] at hok
  cases hf : (collectFrames tracer predictor tol 0 images).2 with
  | error e => rw [hf] at hok; exact absurd hok (by simp)
  | ok fs =>
    rw [hf] at hok
    have hie : images.isEmpty = false := by
      cases images with
      | nil => exact absurd rfl hne
      | cons a l => rfl
    rw [hie] at hok
    simp only [Bool.false_eq_true, if_false] at hok
    obtain rfl := Except.ok.inj hok
    obtain ⟨hlen, hids⟩ := collectFrames_ok tracer predictor tol images 0 fs hf
    constructor
    · rw [List.map_map]
      have hcomp :
          (Prod.fst ∘ fun p : ℕ × TileRow => (p.1, p.2.1, p.2.2.1, p.2.2.2)) =
            Prod.fst := rfl
      rw [hcomp, List.enum_map_fst]
      simp
    · refine ⟨fs, rfl, hlen, rfl, ?_⟩
      intro j hj r hr
      have := hids j hj r hr
      simpa using this

def c1Tracer : Unit → List (List Point) := fun _ => [[(0, 0), (1, 0), (0, 1)]]

def c1Pred : ImagePath → List (Unit × Int × BBox) :=
  fun _ => [((), 7, (0, 0, 1, 1))]

def c1Rows : List AnnotRow := [(0, Sum.inr [(0, 0), (1, 0), (0, 1)], 0, 7)]

/-- Witness for C1 at a concrete one-image, one-instance run. -/
theorem C1_witness :
    (["img0"] : List ImagePath) ≠ [] ∧
    (extract_all_annotations_df c1Tracer c1Pred 0 ["img0"]).2 =
      Except.ok c1Rows ∧
    (c1Rows.map Prod.fst = List.range c1Rows.length ∧
      ∃ frames,
        (collectFrames c1Tracer c1Pred 0 0 ["img0"]).2 = Except.ok frames ∧
        frames.length = (["img0"] : List ImagePath).length ∧
        c1Rows = frames.flatten.enum.map
          (fun p => (p.1, p.2.1, p.2.2.1, p.2.2.2)) ∧
        ∀ j (hj : j < frames.length),
          ∀ r ∈ frames.get ⟨j, hj⟩, r.2.1 = j) :=
  ⟨by simp, rfl,
    C1_global_ids c1Tracer c1Pred 0 ["img0"] c1Rows (by simp) rfl⟩

/-! ### Claim C8 -/

/-- **C8**: for a fixed image list and a fixed per-image model output
(two predictors that agree on every image of the list), two runs of
`extract_all_annotations_df` produce identical tables — in particular
identical `image_id` and `annot_id` assignments. -/
theorem C8_determinism {Mask : Type} (tracer : Mask → List (List Point))
    (p1 p2 : ImagePath → List (Mask × Int × BBox)) (tol : ℚ)
    (images : List ImagePath)
    (h : ∀ img ∈ images, p1 img = p2 img) :
    extract_all_annotations_df tracer p1 tol images =
      extract_all_annotations_df tracer p2 tol images := by
  have hc := collectFrames_congr tracer p1 p2 tol images 0 h
  simp only [extract_all_annotations_df, hc]

def c8Tracer : Unit → List (List Point) := fun _ => [[(0, 0), (2, 0), (0, 2)]]

def c8Pred1 : ImagePath → List (Unit × Int × BBox) :=
  fun _ => [((), 3, (0, 0, 2, 2))]

def c8Pred2 : ImagePath → List (Unit × Int × BBox) :=
  fun _ => [((), 3, (0, 0, 2, 2))]

/-- Witness for C8 at a concrete two-image run. -/
theorem C8_witness :
    (∀ img ∈ (["a", "b"] : List ImagePath), c8Pred1 img = c8Pred2 img) ∧
    extract_all_annotations_df c8Tracer c8Pred1 0 ["a", "b"] =
      extract_all_annotations_df c8Tracer c8Pred2 0 ["a", "b"] :=
  ⟨fun _ _ => rfl,
    C8_determinism c8Tracer c8Pred1 c8Pred2 0 ["a", "b"] fun _ _ => rfl⟩

/-! ### Claim C9 -/

/-- **C9**: on the empty image list `extract_all_annotations_df` raises
the pandas concatenation error (there are zero per-image tables to
concatenate) instead of returning an empty table. -/
theorem C9_empty_list {Mask : Type} (tracer : Mask → List (List Point))
    (predictor : ImagePath → List (Mask × Int × BBox)) (tol : ℚ) :
    extract_all_annotations_df tracer predictor tol [] =
      ([], Except.error "No objects to concatenate") := rfl

/-! ### Claim C4 -/

/-- **C4**: an instance whose mask traces to zero contours contributes
exactly one warning diagnostic and zero polygon/label/bbox/mask
entries, without raising, and the remaining instances of the same
output are processed exactly as they would be otherwise (same rows,
same diagnostics at their own indices). -/
theorem C4_empty_mask {Mask : Type} (tracer : Mask → List (List Point))
    (flatten : Bool) (tol : ℚ) (i : ℕ) (m : Mask) (l : Int) (b : BBox)
    (rest : List (Mask × Int × BBox)) (hempty : tracer m = []) :
    extract_output_annotations tracer flatten tol [(m, l, b)] =
      ([Warn.emptyPolygon 0], Except.ok Rows.nil) ∧
    extractAux tracer flatten tol i ((m, l, b) :: rest) =
      (Warn.emptyPolygon i :: (extractAux tracer flatten tol (i + 1) rest).1,
        (extractAux tracer flatten tol (i + 1) rest).2) := by
  constructor
  · simp [extract_output_annotations, extractAux, hempty]
  · simp [extractAux, hempty]

def c4Tracer : Unit → List (List Point) := fun _ => []

/-- Witness for C4 at a concrete all-empty-mask output. -/
theorem C4_witness :
    c4Tracer () = [] ∧
    (extract_output_annotations c4Tracer false 0 [((), 5, (0, 0, 1, 1))] =
        ([Warn.emptyPolygon 0], Except.ok Rows.nil) ∧
      extractAux c4Tracer false 0 3
          (((), 5, (0, 0, 1, 1)) :: [((), 6, (0, 0, 2, 2))]) =
        (Warn.emptyPolygon 3 ::
            (extractAux c4Tracer false 0 4 [((), 6, (0, 0, 2, 2))]).1,
          (extractAux c4Tracer false 0 4 [((), 6, (0, 0, 2, 2))]).2)) :=
  ⟨rfl, C4_empty_mask c4Tracer false 0 3 () 5 (0, 0, 1, 1)
    [((), 6, (0, 0, 2, 2))] rfl⟩

/-! ### Claim C5 -/

/-- **C5**: an instance whose mask decomposes into k disjoint contours
emits exactly k rows, each carrying that instance's class id and
bounding box; and after aggregation an instance with two disjoint
regions yields exactly two rows sharing the same class id and image id
but distinct `annot_id`s (0 and 1 in a one-image run). -/
theorem C5_multi_polygon {Mask : Type} (tracer : Mask → List (List Point))
    (flatten : Bool) (tol : ℚ) (m : Mask) (l : Int) (b : BBox) :
    (∀ (ps : List (List Point)) (rows : Rows Mask),
      (processContours tol flatten m l b ps).2 = Except.ok rows →
      rows.labels_list = List.replicate ps.length l ∧
      rows.bbox_list = List.replicate ps.length b ∧
      rows.polygons.length = ps.length) ∧
    (∀ (predictor : ImagePath → List (Mask × Int × BBox)) (img : ImagePath)
        (p1 p2 q1 q2 : List Point),
      predictor img = [(m, l, b)] → tracer m = [p1, p2] →
      (polygon_prep p1 tol).2 = Except.ok q1 →
      (polygon_prep p2 tol).2 = Except.ok q2 →
      (extract_all_annotations_df tracer predictor tol [img]).2 =
        Except.ok [(0, Sum.inr q1, 0, l), (1, Sum.inr q2, 0, l)]) := by
  constructor
  · intro ps rows h
    obtain ⟨h1, h2, _, h4⟩ := processContours_ok tol flatten m l b ps rows h
    exact ⟨h1, h2, h4⟩
  · intro predictor img p1 p2 q1 q2 hpred htr h1 h2
    simp [extract_all_annotations_df, collectFrames,
      extract_tile_annotations_df, extract_output_annotations, extractAux,
      processContours, Rows.append, Rows.nil, hpred, htr, h1, h2,
      Except.map, List.enum, List.enumFrom]

def c5Tracer : Unit → List (List Point) :=
  fun _ => [[(0, 0), (1, 0), (0, 1)], [(5, 5), (6, 5), (5, 6)]]

def c5Pred : ImagePath → List (Unit × Int × BBox) :=
  fun _ => [((), 9, (0, 0, 6, 6))]

def c5Contours : List (List Point) :=
  [[(0, 0), (1, 0), (0, 1)], [(5, 5), (6, 5), (5, 6)]]

def c5Rows : Rows Unit :=
  ⟨[(), ()],
   [Sum.inr [(0, 0), (1, 0), (0, 1)], Sum.inr [(5, 5), (6, 5), (5, 6)]],
   [(0, 0, 6, 6), (0, 0, 6, 6)], [9, 9]⟩

/-- Witness for C5 at a concrete two-region instance. -/
theorem C5_witness :
    (processContours 0 false () 9 (0, 0, 6, 6) c5Contours).2 =
      Except.ok c5Rows ∧
    c5Pred "a" = [((), 9, (0, 0, 6, 6))] ∧
    c5Tracer () = [[(0, 0), (1, 0), (0, 1)], [(5, 5), (6, 5), (5, 6)]] ∧
    (c5Rows.labels_list = List.replicate c5Contours.length 9 ∧
      c5Rows.bbox_list = List.replicate c5Contours.length (0, 0, 6, 6) ∧
      c5Rows.polygons.length = c5Contours.length) ∧
    (extract_all_annotations_df c5Tracer c5Pred 0 ["a"]).2 =
      Except.ok [(0, Sum.inr [(0, 0), (1, 0), (0, 1)], 0, 9),
        (1, Sum.inr [(5, 5), (6, 5), (5, 6)], 0, 9)] :=
  ⟨rfl, rfl, rfl,
    (C5_multi_polygon c5Tracer false 0 () 9 (0, 0, 6, 6)).1 c5Contours
      c5Rows rfl,
    (C5_multi_polygon c5Tracer false 0 () 9 (0, 0, 6, 6)).2 c5Pred "a"
      [(0, 0), (1, 0), (0, 1)] [(5, 5), (6, 5), (5, 6)]
      [(0, 0), (1, 0), (0, 1)] [(5, 5), (6, 5), (5, 6)] rfl rfl rfl rfl⟩

/-! ### Claim C2 -/

/-- **C2** counterexample: on the concrete 2-point contour with
tolerance 1, `polygon_prep` does warn but then raises the shapely
`ValueError` from ring construction instead of returning the
degenerate contour as-is — simplification is not skipped for
degenerate contours. -/
theorem C2_counterexample :
    polygon_prep [((0 : ℚ), (0 : ℚ)), (1, 1)] 1 =
      ([Warn.degeneratePolygon [((0 : ℚ), (0 : ℚ)), (1, 1)]],
        Except.error "A linearring requires at least 4 coordinates") := rfl

/-- **C2** amended: a contour with fewer than 3 points always produces
exactly one warning diagnostic; with tolerance 0 (no simplification) it
is returned as-is without raising; but with a positive tolerance the
degenerate contour is not skipped: it is passed to shapely ring
construction, which raises for nonempty contours of fewer than 3
points (the empty contour yields an empty polygon). -/
theorem C2_degenerate_amended (poly : List Point) (tol : ℚ)
    (hdeg : poly.length < 3) :
    (polygon_prep poly tol).1 = [Warn.degeneratePolygon poly] ∧
    (¬ 0 < tol →
      polygon_prep poly tol =
        ([Warn.degeneratePolygon poly], Except.ok poly)) ∧
    (0 < tol → poly ≠ [] →
      (polygon_prep poly tol).2 =
        Except.error "A linearring requires at least 4 coordinates") ∧
    (0 < tol → poly = [] → (polygon_prep poly tol).2 = Except.ok []) := by
  refine ⟨?_, ?_, ?_, ?_⟩
  · simp only [polygon_prep, if_pos hdeg]
    by_cases ht : 0 < tol
    · rw [if_pos ht]
      cases linearRing poly with
      | error e => rfl
      | ok ring => rfl
    · rw [if_neg ht]
  · intro ht
    rw [polygon_prep_nonpos poly tol ht, if_pos hdeg]
  · intro ht hne
    simp only [polygon_prep, if_pos hdeg, if_pos ht]
    rw [linearRing_short poly hne hdeg]
  · intro ht hnil
    subst hnil
    simp [polygon_prep, ht, linearRing, simplifyDP]

/-- Witness for the amended C2 at a concrete 2-point contour. -/
theorem C2_witness :
    ([((0 : ℚ), (0 : ℚ)), (1, 1)] : List Point).length < 3 ∧
    ((polygon_prep [((0 : ℚ), (0 : ℚ)), (1, 1)] 0).1 =
        [Warn.degeneratePolygon [((0 : ℚ), (0 : ℚ)), (1, 1)]] ∧
      (¬ 0 < (0 : ℚ) →
        polygon_prep [((0 : ℚ), (0 : ℚ)), (1, 1)] 0 =
          ([Warn.degeneratePolygon [((0 : ℚ), (0 : ℚ)), (1, 1)]],
            Except.ok [((0 : ℚ), (0 : ℚ)), (1, 1)])) ∧
      (0 < (0 : ℚ) → ([((0 : ℚ), (0 : ℚ)), (1, 1)] : List Point) ≠ [] →
        (polygon_prep [((0 : ℚ), (0 : ℚ)), (1, 1)] 0).2 =
          Except.error "A linearring requires at least 4 coordinates") ∧
      (0 < (0 : ℚ) → ([((0 : ℚ), (0 : ℚ)), (1, 1)] : List Point) = [] →
        (polygon_prep [((0 : ℚ), (0 : ℚ)), (1, 1)] 0).2 = Except.ok [])) :=
  ⟨by decide,
    C2_degenerate_amended [((0 : ℚ), (0 : ℚ)), (1, 1)] 0 (by decide)⟩

/-! ### Claim C3 -/

/-- **C3** counterexample: on the concrete 4-point square contour with
tolerance 1, the returned polygon has 5 points (the exterior-ring round
trip appends the closing vertex), strictly more than the input's 4
points, refuting the claimed point-count bound. -/
theorem C3_counterexample :
    (polygon_prep [((0 : ℚ), (0 : ℚ)), (4, 0), (4, 4), (0, 4)] 1).2 =
      Except.ok [((0 : ℚ), (0 : ℚ)), (4, 0), (4, 4), (0, 4), (0, 0)] ∧
    ¬ ([((0 : ℚ), (0 : ℚ)), (4, 0), (4, 4), (0, 4), (0, 0)].length ≤
        [((0 : ℚ), (0 : ℚ)), (4, 0), (4, 4), (0, 4)].length) :=
  ⟨square_prep_eval, by decide⟩

/-- **C3** amended: for positive tolerance, whenever `polygon_prep`
returns a polygon, its point count is at most the input point count
plus one (ring closure may append the closing vertex), and every
returned point is one of the input points — so every point of the
simplified polygon lies on the original boundary, i.e. deviates from
it by 0 ≤ τ.  For tolerance 0 the contour is returned unchanged. -/
theorem C3_simplification_bound_amended (poly : List Point) (tol : ℚ) :
    (∀ out, 0 < tol → (polygon_prep poly tol).2 = Except.ok out →
      out.length ≤ poly.length + 1 ∧ ∀ p ∈ out, p ∈ poly) ∧
    (polygon_prep poly 0).2 = Except.ok poly := by
  constructor
  · intro out htol hok
    obtain ⟨ring, hring, rfl⟩ := polygon_prep_pos poly tol out htol hok
    have hsub := simplifyDP_sublist tol ring
    have hcase := linearRing_cases poly ring hring
    constructor
    · have hlen := hsub.length_le
      rcases hcase with rfl | ⟨c, cs, hpoly, rfl⟩
      · omega
      · rw [List.length_append, List.length_cons, List.length_nil] at hlen
        omega
    · intro p hp
      have hp2 := hsub.subset hp
      rcases hcase with rfl | ⟨c, cs, hpoly, rfl⟩
      · exact hp2
      · rcases List.mem_append.mp hp2 with hmem | hmem
        · exact hmem
        · rw [List.mem_singleton] at hmem
          rw [hmem, hpoly]
          exact List.mem_cons_self c cs
  · simp [polygon_prep]

/-- Witness for the amended C3 at the concrete square contour. -/
theorem C3_witness :
    0 < (1 : ℚ) ∧
    (polygon_prep [((0 : ℚ), (0 : ℚ)), (4, 0), (4, 4), (0, 4)] 1).2 =
      Except.ok [((0 : ℚ), (0 : ℚ)), (4, 0), (4, 4), (0, 4), (0, 0)] ∧
    ([((0 : ℚ), (0 : ℚ)), (4, 0), (4, 4), (0, 4), (0, 0)].length ≤
        [((0 : ℚ), (0 : ℚ)), (4, 0), (4, 4), (0, 4)].length + 1 ∧
      ∀ p ∈ [((0 : ℚ), (0 : ℚ)), (4, 0), (4, 4), (0, 4), (0, 0)],
        p ∈ [((0 : ℚ), (0 : ℚ)), (4, 0), (4, 4), (0, 4)]) :=
  ⟨by norm_num, square_prep_eval,
    (C3_simplification_bound_amended
        [((0 : ℚ), (0 : ℚ)), (4, 0), (4, 4), (0, 4)] 1).1
      [((0 : ℚ), (0 : ℚ)), (4, 0), (4, 4), (0, 4), (0, 0)]
      (by norm_num) square_prep_eval⟩

/-! ### Claim C10 -/

/-- **C10**: for every at-least-3-point contour and positive tolerance,
whenever `polygon_prep` returns a polygon its first coordinate pair
equals its last (the shapely exterior-ring round trip keeps the ring
closed); for tolerance 0 the contour is returned in its original
form. -/
theorem C10_closed_ring (poly : List Point) (tol : ℚ) :
    (∀ out, 0 < tol → 3 ≤ poly.length →
      (polygon_prep poly tol).2 = Except.ok out →
      out.head? = out.getLast?) ∧
    (polygon_prep poly 0).2 = Except.ok poly := by
  constructor
  · intro out htol hlen hok
    obtain ⟨ring, hring, rfl⟩ := polygon_prep_pos poly tol out htol hok
    have hne : poly ≠ [] := by
      intro hnil
      rw [hnil] at hlen
      simp at hlen
    obtain ⟨hclosed, hlen4⟩ := linearRing_closed poly ring hne hring
    cases ring with
    | nil => simp at hlen4
    | cons a tail =>
      cases tail with
      | nil =>
        simp only [List.length_cons, List.length_nil] at hlen4
        omega
      | cons r rs =>
        rw [simplifyDP_head?, simplifyDP_getLast?]
        simpa using hclosed
  · simp [polygon_prep]

/-- Witness for C10 at the concrete triangle contour. -/
theorem C10_witness :
    0 < (1 : ℚ) ∧
    3 ≤ ([((0 : ℚ), (0 : ℚ)), (4, 0), (0, 4)] : List Point).length ∧
    (polygon_prep [((0 : ℚ), (0 : ℚ)), (4, 0), (0, 4)] 1).2 =
      Except.ok [((0 : ℚ), (0 : ℚ)), (4, 0), (0, 4), (0, 0)] ∧
    ([((0 : ℚ), (0 : ℚ)), (4, 0), (0, 4), (0, 0)] : List Point).head? =
      ([((0 : ℚ), (0 : ℚ)), (4, 0), (0, 4), (0, 0)] : List Point).getLast? :=
  ⟨by norm_num, by decide, tri_prep_eval_tol1,
    (C10_closed_ring [((0 : ℚ), (0 : ℚ)), (4, 0), (0, 4)] 1).1
      [((0 : ℚ), (0 : ℚ)), (4, 0), (0, 4), (0, 0)]
      (by norm_num) (by decide) tri_prep_eval_tol1⟩

/-! ### Claim C7 -/

/-- **C7** counterexample: a simplify tolerance of 2 is outside the
documented range \[0, 1\], yet `polygon_prep` does not fail fast — it
processes the polygon normally and returns a result. -/
theorem C7_counterexample :
    ¬ ((2 : ℚ) ≤ 1) ∧
    (polygon_prep [((0 : ℚ), (0 : ℚ)), (4, 0), (0, 4)] 2).2 =
      Except.ok [((0 : ℚ), (0 : ℚ)), (4, 0), (0, 4), (0, 0)] :=
  ⟨by norm_num, tri_prep_eval_tol2⟩

/-- **C7** amended: `density_estimate_combined_area` does fail fast — a
`footprint_ratio` outside \[0, 1\] raises the precondition assertion
before any density computation, whatever the annotation data and
sub-estimators are; `polygon_prep`, by contrast, performs no range
validation of its tolerance and processes out-of-range tolerances
normally. -/
theorem C7_fail_fast_amended (r : ℚ) (hout : ¬ (0 ≤ r ∧ r ≤ 1)) :
    (∀ (α : Type) (ann : α) (fA fN : α → ℚ),
      density_estimate_combined_area ann fA fN r =
        Except.error "footprint_ratio must be between 0 and 1") ∧
    (∀ (c : Point) (cs : List Point), 3 ≤ (c :: cs).length →
      (c :: cs).getLast (List.cons_ne_nil c cs) ≠ c →
      ∃ out, (polygon_prep (c :: cs) r).2 = Except.ok out) := by
  constructor
  · intro α ann fA fN
    simp [density_estimate_combined_area, hout]
  · intro c cs hlen hne
    by_cases hr : 0 < r
    · refine ⟨simplifyDP r ((c :: cs) ++ [c]), ?_⟩
      simp only [polygon_prep, if_pos hr]
      rw [linearRing_open c cs hlen hne]
    · exact ⟨c :: cs, by rw [polygon_prep_nonpos _ _ hr]⟩

/-- Witness for the amended C7 at ratio 2 and the concrete triangle. -/
theorem C7_witness :
    ¬ ((0 : ℚ) ≤ 2 ∧ (2 : ℚ) ≤ 1) ∧
    density_estimate_combined_area () (fun _ => 0) (fun _ => 0) 2 =
      Except.error "footprint_ratio must be between 0 and 1" ∧
    ∃ out, (polygon_prep (((0 : ℚ), (0 : ℚ)) ::
      [((4 : ℚ), (0 : ℚ)), ((0 : ℚ), (4 : ℚ))]) 2).2 = Except.ok out :=
  ⟨by norm_num,
    (C7_fail_fast_amended 2 (by norm_num)).1 Unit () (fun _ => 0) (fun _ => 0),
    (C7_fail_fast_amended 2 (by norm_num)).2 ((0 : ℚ), (0 : ℚ))
      [((4 : ℚ), (0 : ℚ)), ((0 : ℚ), (4 : ℚ))] (by decide) (by decide)⟩

/-! ### Claim C6 -/

/-- **C6**: the categories list contains exactly one entry per distinct
class id appearing in the table (its key list is duplicate-free and
covers exactly the observed class ids), sorted by class id ascending;
with a supplied mapping each entry's name and supercategory come from
the mapping, and without one the name is the string form of the
numeric class id and the supercategory is unset. -/
theorem C6_categories (annots : List AnnotRow) :
    List.Sorted (· ≤ ·) (groupby_class_keys annots) ∧
    (groupby_class_keys annots).Nodup ∧
    (∀ c : Int, c ∈ groupby_class_keys annots ↔
      c ∈ annots.map fun r => r.2.2.2) ∧
    assemble_coco_json_categories none annots =
      Except.ok ((groupby_class_keys annots).map
        fun cat => make_category (toString cat) cat none) ∧
    (∀ catmap : Int → String × String,
      assemble_coco_json_categories (some (fun c => some (catmap c))) annots =
        Except.ok ((groupby_class_keys annots).map fun cat =>
          make_category (catmap cat).1 cat (some (catmap cat).2))) := by
  refine ⟨?_, ?_, ?_, rfl, ?_⟩
  · exact List.Pairwise.sublist (List.dedup_sublist _)
      (List.sorted_insertionSort _ _)
  · exact List.nodup_dedup _
  · intro c
    rw [groupby_class_keys, List.mem_dedup]
    exact (List.perm_insertionSort _ _).mem_iff
  · intro catmap
    exact assembleCats_total catmap (groupby_class_keys annots)

end AerialSeg
